import Mathlib

/-!
Verification of the GHISA forwarding gateway (`src/server.go`).

The development shallowly embeds the two HTTP handlers of the repository,
`proxyHandler` and `healthHandler`, as pure Lean functions.  The pieces of
the Go standard library the handlers use are modelled explicitly:

* `net/http.Header` (a `map[string][]string` with `Set`, `Add`, `Del`,
  `Get`) is modelled as an association list `List (String × List String)`
  with the operations `headerSet`, `headerAdd`, `headerDel`,
  `headerValues`, `headerGet`.  Key canonicalisation (Go canonicalises
  MIME header keys) is omitted: every key appearing in the program and in
  the claims is already in canonical form, so canonicalisation is the
  identity on all keys involved.
* `net/url.Parse` is modelled by `goURLParse`: it fails exactly when the
  string contains an ASCII control byte or when the part before any `?`
  (scheme, authority and path — the components Go unescapes eagerly)
  contains a `%` not followed by two hex digits, the failure modes
  exercised by the program's tests.  The parsed value retains the input
  string and `GoURL.toString` (Go's `URL.String()`) returns it.
* `http.ResponseWriter` is modelled by `Response`: a header map, an
  optional committed status code (Go commits the status on the first
  `WriteHeader`; later calls are ignored; a `Write` before any
  `WriteHeader` commits 200) and the accumulated body.
* `http.Error` is modelled by `httpError`, following its source: delete
  Content-Length, set Content-Type and X-Content-Type-Options, write the
  status code, then write the message followed by a newline.
* the network (`http.Client.Do` plus the subsequent `io.ReadAll` of the
  response body) is a parameter `transport : OutboundRequest → Except
  String UpstreamResponse`, where `UpstreamResponse.bodyRead` is the
  result of reading the upstream body.

`proxyHandler` returns, besides the written `Response`, the outbound
request that was handed to `client.Do`, when one was: `none` means no
outbound request was attempted.
-/

namespace Ghisa

/-- Association-list form of Go's `map[string][]string` header map. -/
abbrev HeaderMap := List (String × List String)

/-- Model of `Header.Set`: replace the values stored under `k` by `[v]`
(Go map assignment after `textproto.MIMEHeader.Set`). -/
def headerSet (k v : String) : HeaderMap → HeaderMap
  | [] => [(k, [v])]
  | e :: rest => if e.1 = k then (k, [v]) :: rest else e :: headerSet k v rest

/-- Model of `Header.Add`: append `v` to the values stored under `k`,
creating the entry when absent. -/
def headerAdd (k v : String) : HeaderMap → HeaderMap
  | [] => [(k, [v])]
  | e :: rest => if e.1 = k then (e.1, e.2 ++ [v]) :: rest else e :: headerAdd k v rest

/-- Model of `Header.Del`: remove the entry stored under `k`. -/
def headerDel (k : String) : HeaderMap → HeaderMap
  | [] => []
  | e :: rest => if e.1 = k then headerDel k rest else e :: headerDel k rest

/-- The list of values stored under key `k` (Go `Header.Values`). -/
def headerValues (k : String) : HeaderMap → List String
  | [] => []
  | e :: rest => if e.1 = k then e.2 else headerValues k rest

/-- Model of `Header.Get`: the first value stored under `k`, or `""`. -/
def headerGet (k : String) (h : HeaderMap) : String :=
  (headerValues k h).headD ""

/-- Model of `url.Values.Get` on a parsed query: the first value for the
key, or `""` when the key is absent. -/
def queryGet (q : List (String × String)) (k : String) : String :=
  match q.find? (fun e => e.1 = k) with
  | some e => e.2
  | none => ""

/-- Hex-digit test used by Go's `ishex` in `net/url` unescaping. -/
def isHexDigit (c : Char) : Bool :=
  (('0' ≤ c && c ≤ '9') || ('a' ≤ c && c ≤ 'f') || ('A' ≤ c && c ≤ 'F'))

/-- Every `%` in the character list is followed by two hex digits
(Go's `unescape` succeeds on the string). -/
def validEscapes : List Char → Bool
  | [] => true
  | '%' :: c1 :: c2 :: rest => isHexDigit c1 && isHexDigit c2 && validEscapes rest
  | '%' :: _ => false
  | _ :: rest => validEscapes rest

/-- ASCII control byte test (Go's `stringContainsCTLByte`). -/
def isCTLByte (c : Char) : Bool :=
  c.toNat < 0x20 || c.toNat == 0x7f

/-- A parsed URL.  Go's `url.Parse` decomposes the string; for this
development only the round trip through `URL.String()` matters, so the
model retains the input string. -/
structure GoURL where
  raw : String
deriving Repr, DecidableEq

/-- Model of Go's `URL.String()`: the retained input (Go's
parse/serialise round trip is the identity on the URLs this development
touches). -/
def GoURL.toString (u : GoURL) : String := u.raw

/-- Model of `url.Parse`.  Parsing fails when the string contains an
ASCII control byte, or when the part before any `?` contains an invalid
percent escape (an unescaped `%` not followed by two hex digits); these
are the failure modes of Go's parser relevant here. -/
def goURLParse (s : String) : Option GoURL :=
  if s.toList.any isCTLByte then none
  else if validEscapes ((s.toList.takeWhile (fun c => c ≠ '#')).takeWhile (fun c => c ≠ '?')) then
    some ⟨s⟩
  else none

/-- The inbound `*http.Request` as the handlers observe it: method,
URL path, parsed query, header map, and the result `io.ReadAll(r.Body)`
would produce. -/
structure InboundRequest where
  method : String
  path : String
  query : List (String × String)
  header : HeaderMap
  bodyRead : Except String String

/-- The outbound request handed to `client.Do`: method, serialised URL,
optional body, header map. -/
structure OutboundRequest where
  method : String
  url : String
  body : Option String
  header : HeaderMap
deriving Repr, DecidableEq

/-- The upstream response as the handler consumes it: status code,
header map, and the result `io.ReadAll(resp.Body)` would produce. -/
structure UpstreamResponse where
  status : Nat
  header : HeaderMap
  bodyRead : Except String String

/-- The network: `client.Do` either fails or yields an upstream
response. -/
abbrev Transport := OutboundRequest → Except String UpstreamResponse

/-- The state of an `http.ResponseWriter`: header map, committed status
code (`none` until the first `WriteHeader`), accumulated body. -/
structure Response where
  header : HeaderMap
  status : Option Nat
  body : String

/-- A fresh response writer. -/
def Response.empty : Response := ⟨[], none, ""⟩

/-- Model of `WriteHeader`: the first call commits the status, later
calls are ignored. -/
def Response.writeHeader (w : Response) (code : Nat) : Response :=
  match w.status with
  | none => { w with status := some code }
  | some _ => w

/-- Model of `Write`: an implicit `WriteHeader(200)` when no status has
been committed, then append the bytes. -/
def Response.write (w : Response) (s : String) : Response :=
  let w1 := w.writeHeader 200
  { w1 with body := w1.body ++ s }

/-- The status code an observer sees: the committed one, or the platform
default 200. -/
def Response.statusCode (w : Response) : Nat :=
  w.status.getD 200

/-- Model of `http.Error` (its Go source: delete Content-Length, set
Content-Type and X-Content-Type-Options, `WriteHeader(code)`, then
`Fprintln` the message). -/
def httpError (w : Response) (msg : String) (code : Nat) : Response :=
  let h := headerSet "X-Content-Type-Options" "nosniff"
    (headerSet "Content-Type" "text/plain; charset=utf-8"
      (headerDel "Content-Length" w.header))
  Response.write (Response.writeHeader { w with header := h } code) (msg ++ "\n")

/-- Model of `http.NewRequest`: re-parses the URL string (failing when
the parse fails) and otherwise builds the request with an empty header
map. -/
def newRequest (method url : String) (body : Option String) : Except String OutboundRequest :=
  match goURLParse url with
  | none => .error "invalid url"
  | some _ => .ok { method := method, url := url, body := body, header := [] }

/-- The header-copy loop of `proxyHandler` (lines 68-72 of
`src/server.go`): for each upstream header key and each value under it,
`w.Header().Add(key, value)`. -/
def copyHeaders (w : HeaderMap) (entries : HeaderMap) : HeaderMap :=
  entries.foldl (fun acc e => e.2.foldl (fun a v => headerAdd e.1 v a) acc) w

/-- The response writer after the three unconditional `Set` calls of
lines 18-20 of `src/server.go`. -/
def corsResponse : Response :=
  { Response.empty with header :=
    (headerSet "Access-Control-Allow-Headers" "Content-Type"
      (headerSet "Access-Control-Allow-Methods" "GET, POST, OPTIONS"
        (headerSet "Access-Control-Allow-Origin" "*" Response.empty.header))) }

/-- Lines 68-80 of `src/server.go`: copy the upstream headers, write the
upstream status, and relay the upstream body (or report a body-read
failure). -/
def relayStage (w : Response) (resp : UpstreamResponse) : Response :=
  let w := { w with header := copyHeaders w.header resp.header }
  let w := w.writeHeader resp.status
  match resp.bodyRead with
  | .error _ => httpError w "GHISA: Failed to read response body" 500
  | .ok body => w.write body

/-- Lines 60-81 of `src/server.go`: execute the outbound request, then
on success relay the upstream response. -/
def doStage (transport : Transport) (w : Response) (req : OutboundRequest) : Response :=
  match transport req with
  | .error _ => httpError w "GHISA: Failed to make request" 500
  | .ok resp => relayStage w resp

/-- Shallow embedding of `proxyHandler` (`src/server.go` lines 17-81).
The second component of the result is the outbound request passed to
`client.Do`, or `none` when no outbound request was attempted. -/
def proxyHandler (transport : Transport) (r : InboundRequest) :
    Response × Option OutboundRequest :=
  let w := corsResponse
  if r.method = "OPTIONS" then
    (w, none)
  else
    let targetURL := queryGet r.query "url"
    if targetURL = "" then
      (httpError w "Missing url parameter" 400, none)
    else
      match goURLParse targetURL with
      | none => (httpError w "Invalid url parameter" 400, none)
      | some proxyURL =>
        let build : Except Response OutboundRequest :=
          if r.method = "POST" then
            match r.bodyRead with
            | .error _ => .error (httpError w "GHISA: Failed to read request body" 500)
            | .ok body =>
              match newRequest "POST" proxyURL.toString (some body) with
              | .error _ => .error (httpError w "GHISA: Failed to create request" 500)
              | .ok req => .ok { req with header := r.header }
          else
            match newRequest "GET" proxyURL.toString none with
            | .error _ => .error (httpError w "GHISA: Failed to create request" 500)
            | .ok req => .ok { req with header := r.header }
        match build with
        | .error werr => (werr, none)
        | .ok req => (doStage transport w req, some req)

/-- Shallow embedding of `healthHandler` (`src/server.go` lines 83-96).
`http.NotFound` is `http.Error(w, "404 page not found", 404)`. -/
def healthHandler (r : InboundRequest) : Response :=
  let w := Response.empty
  if r.method ≠ "GET" then
    httpError w "Method not allowed" 405
  else if r.path ≠ "/health" then
    httpError w "404 page not found" 404
  else
    Response.write (w.writeHeader 200) "Server is healthy"

/-! Helper lemmas about the header-map model. -/

theorem string_empty_append (s : String) : "" ++ s = s := by
  cases s
  rfl

theorem headerValues_set_self (k v : String) (h : HeaderMap) :
    headerValues k (headerSet k v h) = [v] := by
  induction h with
  | nil => simp [headerSet, headerValues]
  | cons e rest ih =>
    by_cases he : e.1 = k
    · simp [headerSet, he, headerValues]
    · simp [headerSet, he, headerValues, ih]

theorem headerValues_set_ne (k q v : String) (h : HeaderMap) (hk : k ≠ q) :
    headerValues q (headerSet k v h) = headerValues q h := by
  induction h with
  | nil => simp [headerSet, headerValues, hk]
  | cons e rest ih =>
    by_cases he : e.1 = k
    · subst he
      simp [headerSet, headerValues, hk]
    · simp [headerSet, he, headerValues, ih]

theorem headerValues_del_ne (k q : String) (h : HeaderMap) (hk : k ≠ q) :
    headerValues q (headerDel k h) = headerValues q h := by
  induction h with
  | nil => simp [headerDel]
  | cons e rest ih =>
    by_cases he : e.1 = k
    · subst he
      simp [headerDel, headerValues, hk, ih]
    · simp [headerDel, he, headerValues, ih]

theorem headerValues_add_ne (k q v : String) (h : HeaderMap) (hk : k ≠ q) :
    headerValues q (headerAdd k v h) = headerValues q h := by
  induction h with
  | nil => simp [headerAdd, headerValues, hk]
  | cons e rest ih =>
    by_cases he : e.1 = k
    · subst he
      simp [headerAdd, headerValues, hk]
    · simp [headerAdd, he, headerValues, ih]

theorem head_headerValues_add (k q v : String) (h : HeaderMap) (x : String)
    (hx : (headerValues q h).head? = some x) :
    (headerValues q (headerAdd k v h)).head? = some x := by
  by_cases hk : k = q
  · subst hk
    induction h with
    | nil => simp [headerValues] at hx
    | cons e rest ih =>
      by_cases he : e.1 = k
      · simp only [headerValues, if_pos he] at hx
        simp only [headerAdd, if_pos he, headerValues]
        cases e2 : e.2 with
        | nil => rw [e2] at hx; simp at hx
        | cons a as => rw [e2] at hx; simpa using hx
      · simp only [headerValues, if_neg he] at hx
        simp only [headerAdd, if_neg he, headerValues]
        exact ih hx
  · rw [headerValues_add_ne k q v h hk, hx]

theorem mem_headerValues_add_self (k v : String) (h : HeaderMap) :
    v ∈ headerValues k (headerAdd k v h) := by
  induction h with
  | nil => simp [headerAdd, headerValues]
  | cons e rest ih =>
    by_cases he : e.1 = k
    · simp only [headerAdd, if_pos he, headerValues]
      simp
    · simp only [headerAdd, if_neg he, headerValues]
      simpa [he] using ih

theorem mem_headerValues_add (k q v x : String) (h : HeaderMap)
    (hx : x ∈ headerValues q h) : x ∈ headerValues q (headerAdd k v h) := by
  by_cases hk : k = q
  · subst hk
    induction h with
    | nil => simp [headerValues] at hx
    | cons e rest ih =>
      by_cases he : e.1 = k
      · simp only [headerValues, if_pos he] at hx
        simp only [headerAdd, if_pos he, headerValues]
        simp only [List.mem_append]
        exact Or.inl hx
      · simp only [headerValues, if_neg he] at hx
        simp only [headerAdd, if_neg he, headerValues]
        exact ih hx
  · rw [headerValues_add_ne k q v h hk]
    exact hx

/-- The inner loop of the header copy: add every value of `vs` under
key `k`. -/
def addAll (k : String) (vs : List String) (w : HeaderMap) : HeaderMap :=
  vs.foldl (fun a v => headerAdd k v a) w

theorem addAll_cons (k v : String) (vs : List String) (w : HeaderMap) :
    addAll k (v :: vs) w = addAll k vs (headerAdd k v w) := rfl

theorem copyHeaders_nil (w : HeaderMap) : copyHeaders w [] = w := rfl

theorem copyHeaders_cons (w : HeaderMap) (e : String × List String) (rest : HeaderMap) :
    copyHeaders w (e :: rest) = copyHeaders (addAll e.1 e.2 w) rest := rfl

theorem head_headerValues_addAll (k q : String) (vs : List String) (x : String) :
    ∀ w : HeaderMap, (headerValues q w).head? = some x →
      (headerValues q (addAll k vs w)).head? = some x := by
  induction vs with
  | nil => intro w hx; exact hx
  | cons v rest ih =>
    intro w hx
    rw [addAll_cons]
    exact ih _ (head_headerValues_add k q v w x hx)

theorem head_headerValues_copyHeaders (q : String) (entries : HeaderMap) (x : String) :
    ∀ w : HeaderMap, (headerValues q w).head? = some x →
      (headerValues q (copyHeaders w entries)).head? = some x := by
  induction entries with
  | nil => intro w hx; exact hx
  | cons e rest ih =>
    intro w hx
    rw [copyHeaders_cons]
    exact ih _ (head_headerValues_addAll e.1 q e.2 x w hx)

theorem mem_headerValues_addAll (k q x : String) (vs : List String) :
    ∀ w : HeaderMap, x ∈ headerValues q w → x ∈ headerValues q (addAll k vs w) := by
  induction vs with
  | nil => intro w hx; exact hx
  | cons v rest ih =>
    intro w hx
    rw [addAll_cons]
    exact ih _ (mem_headerValues_add k q v x w hx)

theorem mem_headerValues_copyHeaders (q x : String) (entries : HeaderMap) :
    ∀ w : HeaderMap, x ∈ headerValues q w → x ∈ headerValues q (copyHeaders w entries) := by
  induction entries with
  | nil => intro w hx; exact hx
  | cons e rest ih =>
    intro w hx
    rw [copyHeaders_cons]
    exact ih _ (mem_headerValues_addAll e.1 q x e.2 w hx)

theorem mem_headerValues_addAll_self (k v : String) :
    ∀ (vs : List String), v ∈ vs →
      ∀ w : HeaderMap, v ∈ headerValues k (addAll k vs w) := by
  intro vs
  induction vs with
  | nil => intro hv; cases hv
  | cons a rest ih =>
    intro hv w
    rw [addAll_cons]
    rcases List.mem_cons.mp hv with h | h
    · subst h
      exact mem_headerValues_addAll k k v rest _ (mem_headerValues_add_self k v w)
    · exact ih h _

theorem mem_headerValues_copyHeaders_of_mem (q v : String) (vs : List String) :
    ∀ (entries w : HeaderMap), (q, vs) ∈ entries → v ∈ vs →
      v ∈ headerValues q (copyHeaders w entries) := by
  intro entries
  induction entries with
  | nil => intro w h; cases h
  | cons e rest ih =>
    intro w hmem hv
    rw [copyHeaders_cons]
    rcases List.mem_cons.mp hmem with h | h
    · rw [← h]
      exact mem_headerValues_copyHeaders q v rest _ (mem_headerValues_addAll_self q v vs hv w)
    · exact ih _ h hv

theorem headerGet_eq_of_head (q x : String) (h : HeaderMap)
    (hx : (headerValues q h).head? = some x) : headerGet q h = x := by
  unfold headerGet
  cases hv : headerValues q h with
  | nil => rw [hv] at hx; simp at hx
  | cons a as =>
    rw [hv] at hx
    simp only [List.head?] at hx
    cases hx
    rfl

/-! Helper lemmas about the response-writer model. -/

theorem writeHeader_header (w : Response) (c : Nat) :
    (w.writeHeader c).header = w.header := by
  unfold Response.writeHeader
  cases w.status <;> rfl

theorem writeHeader_body (w : Response) (c : Nat) :
    (w.writeHeader c).body = w.body := by
  unfold Response.writeHeader
  cases w.status <;> rfl

theorem writeHeader_status_of_none (w : Response) (c : Nat) (h : w.status = none) :
    (w.writeHeader c).status = some c := by
  unfold Response.writeHeader
  rw [h]

theorem writeHeader_status_of_some (w : Response) (c c0 : Nat) (h : w.status = some c0) :
    (w.writeHeader c).status = some c0 := by
  unfold Response.writeHeader
  rw [h]
  exact h

theorem write_header (w : Response) (s : String) :
    (w.write s).header = w.header := by
  unfold Response.write
  exact writeHeader_header w 200

theorem write_body (w : Response) (s : String) :
    (w.write s).body = w.body ++ s := by
  show (w.writeHeader 200).body ++ s = w.body ++ s
  rw [writeHeader_body]

theorem write_status_of_some (w : Response) (s : String) (c0 : Nat) (h : w.status = some c0) :
    (w.write s).status = some c0 := by
  unfold Response.write
  exact writeHeader_status_of_some w 200 c0 h

theorem write_status_of_none (w : Response) (s : String) (h : w.status = none) :
    (w.write s).status = some 200 := by
  unfold Response.write
  exact writeHeader_status_of_none w 200 h

theorem httpError_header (w : Response) (msg : String) (code : Nat) :
    (httpError w msg code).header =
      headerSet "X-Content-Type-Options" "nosniff"
        (headerSet "Content-Type" "text/plain; charset=utf-8"
          (headerDel "Content-Length" w.header)) := by
  unfold httpError
  rw [write_header, writeHeader_header]

theorem httpError_body (w : Response) (msg : String) (code : Nat) :
    (httpError w msg code).body = w.body ++ (msg ++ "\n") := by
  unfold httpError
  rw [write_body, writeHeader_body]

theorem httpError_status_of_none (w : Response) (msg : String) (code : Nat)
    (h : w.status = none) : (httpError w msg code).status = some code := by
  show (Response.write (Response.writeHeader
    { w with header := (headerSet "X-Content-Type-Options" "nosniff"
        (headerSet "Content-Type" "text/plain; charset=utf-8"
          (headerDel "Content-Length" w.header))) } code) (msg ++ "\n")).status = some code
  exact write_status_of_some _ _ code (writeHeader_status_of_none _ code h)

theorem httpError_statusCode_of_none (w : Response) (msg : String) (code : Nat)
    (h : w.status = none) : (httpError w msg code).statusCode = code := by
  unfold Response.statusCode
  rw [httpError_status_of_none w msg code h]
  rfl

/-! Helper lemmas about the URL-parse model. -/

theorem goURLParse_raw (s : String) (u : GoURL) (h : goURLParse s = some u) :
    u.raw = s := by
  unfold goURLParse at h
  split at h
  · exact absurd h (by simp)
  · split at h
    · cases h
      rfl
    · exact absurd h (by simp)

theorem goURLParse_toString (s : String) (u : GoURL) (h : goURLParse s = some u) :
    goURLParse u.toString = some u := by
  rw [GoURL.toString, goURLParse_raw s u h]
  exact h

/-! The CORS header invariant and its preservation. -/

/-- The three CORS headers carry their prescribed values (as observed by
`Header.Get`). -/
def corsSet (h : HeaderMap) : Prop :=
  headerGet "Access-Control-Allow-Origin" h = "*" ∧
  headerGet "Access-Control-Allow-Methods" h = "GET, POST, OPTIONS" ∧
  headerGet "Access-Control-Allow-Headers" h = "Content-Type"

instance (h : HeaderMap) : Decidable (corsSet h) := by
  unfold corsSet
  infer_instance

/-- Strengthening of `corsSet` that is preserved by `Header.Add`: the
prescribed value is the first value stored under each CORS key. -/
def corsHead (h : HeaderMap) : Prop :=
  (headerValues "Access-Control-Allow-Origin" h).head? = some "*" ∧
  (headerValues "Access-Control-Allow-Methods" h).head? = some "GET, POST, OPTIONS" ∧
  (headerValues "Access-Control-Allow-Headers" h).head? = some "Content-Type"

theorem corsSet_of_corsHead (h : HeaderMap) (hc : corsHead h) : corsSet h :=
  ⟨headerGet_eq_of_head _ _ _ hc.1, headerGet_eq_of_head _ _ _ hc.2.1,
   headerGet_eq_of_head _ _ _ hc.2.2⟩

theorem corsHead_corsResponse : corsHead corsResponse.header := by
  refine ⟨?_, ?_, ?_⟩ <;> decide

theorem corsHead_httpError (w : Response) (msg : String) (code : Nat)
    (h : corsHead w.header) : corsHead (httpError w msg code).header := by
  obtain ⟨h1, h2, h3⟩ := h
  rw [httpError_header]
  refine ⟨?_, ?_, ?_⟩ <;>
  · rw [headerValues_set_ne _ _ _ _ (by decide), headerValues_set_ne _ _ _ _ (by decide),
      headerValues_del_ne _ _ _ (by decide)]
    assumption

theorem corsHead_copyHeaders (w : HeaderMap) (entries : HeaderMap) (h : corsHead w) :
    corsHead (copyHeaders w entries) :=
  ⟨head_headerValues_copyHeaders _ entries _ w h.1,
   head_headerValues_copyHeaders _ entries _ w h.2.1,
   head_headerValues_copyHeaders _ entries _ w h.2.2⟩

theorem doStage_eq_err (t : Transport) (w : Response) (req : OutboundRequest)
    (e : String) (ht : t req = .error e) :
    doStage t w req = httpError w "GHISA: Failed to make request" 500 := by
  unfold doStage
  rw [ht]

theorem doStage_eq_relay (t : Transport) (w : Response) (req : OutboundRequest)
    (resp : UpstreamResponse) (ht : t req = .ok resp) :
    doStage t w req = relayStage w resp := by
  unfold doStage
  rw [ht]

theorem relayStage_eq_bodyerr (w : Response) (resp : UpstreamResponse)
    (e : String) (hb : resp.bodyRead = .error e) :
    relayStage w resp =
      httpError (({ w with header := copyHeaders w.header resp.header }).writeHeader resp.status)
        "GHISA: Failed to read response body" 500 := by
  unfold relayStage
  rw [hb]

theorem relayStage_eq_write (w : Response) (resp : UpstreamResponse)
    (b : String) (hb : resp.bodyRead = .ok b) :
    relayStage w resp =
      (({ w with header := copyHeaders w.header resp.header }).writeHeader resp.status).write b := by
  unfold relayStage
  rw [hb]

theorem corsHead_relayStage (w : Response) (resp : UpstreamResponse)
    (h : corsHead w.header) : corsHead (relayStage w resp).header := by
  cases hb : resp.bodyRead with
  | error e =>
    rw [relayStage_eq_bodyerr w resp e hb]
    apply corsHead_httpError
    rw [writeHeader_header]
    exact corsHead_copyHeaders _ _ h
  | ok b =>
    rw [relayStage_eq_write w resp b hb]
    rw [write_header, writeHeader_header]
    exact corsHead_copyHeaders _ _ h

theorem corsHead_doStage (t : Transport) (w : Response) (req : OutboundRequest)
    (h : corsHead w.header) : corsHead (doStage t w req).header := by
  cases ht : t req with
  | error e =>
    rw [doStage_eq_err t w req e ht]
    exact corsHead_httpError w _ 500 h
  | ok resp =>
    rw [doStage_eq_relay t w req resp ht]
    exact corsHead_relayStage w resp h

/-! Behaviour of the post-`Do` stage on a fully successful exchange. -/

theorem doStage_ok (t : Transport) (w : Response) (req : OutboundRequest)
    (resp : UpstreamResponse) (b : String)
    (ht : t req = .ok resp) (hb : resp.bodyRead = .ok b) (hs : w.status = none) :
    (doStage t w req).statusCode = resp.status ∧
    (doStage t w req).body = w.body ++ b ∧
    (doStage t w req).header = copyHeaders w.header resp.header := by
  rw [doStage_eq_relay t w req resp ht, relayStage_eq_write w resp b hb]
  refine ⟨?_, ?_, ?_⟩
  · unfold Response.statusCode
    have h1 : (({ w with header := copyHeaders w.header resp.header }.writeHeader
        resp.status).write b).status = some resp.status :=
      write_status_of_some _ _ resp.status (writeHeader_status_of_none _ _ hs)
    rw [h1]
    rfl
  · rw [write_body, writeHeader_body]
  · rw [write_header, writeHeader_header]

/-! Concrete fixtures used by witnesses and counterexamples. -/

/-- A transport on which every outbound request fails. -/
def stubTransport : Transport := fun _ => .error "connection refused"

/-- A fixed upstream response. -/
def upstreamA : UpstreamResponse :=
  { status := 201, header := [("X-Upstream", ["a"])], bodyRead := .ok "backend response" }

/-- A transport that always returns `upstreamA`. -/
def okTransport : Transport := fun _ => .ok upstreamA

/-- A transport that echoes the outbound request body with status 200. -/
def echoTransport : Transport := fun req =>
  .ok { status := 200, header := [], bodyRead := .ok (req.body.getD "") }

def reqOptions : InboundRequest :=
  { method := "OPTIONS", path := "/", query := [("url", "http://%")], header := [],
    bodyRead := .ok "" }

def reqMissingUrl : InboundRequest :=
  { method := "GET", path := "/", query := [], header := [], bodyRead := .ok "" }

def reqBadUrl : InboundRequest :=
  { method := "GET", path := "/", query := [("url", "http://%")],
    header := [("Content-Type", ["application/json"])], bodyRead := .ok "" }

def reqGet : InboundRequest :=
  { method := "GET", path := "/", query := [("url", "http://example.com/echo")],
    header := [("Content-Type", ["application/json"])], bodyRead := .ok "" }

def reqDelete : InboundRequest := { reqGet with method := "DELETE" }

def reqPost : InboundRequest :=
  { method := "POST", path := "/", query := [("url", "http://example.com/echo")],
    header := [("Content-Type", ["application/json"])], bodyRead := .ok "test body" }

/-! Claim theorems. -/

/-- C2: for every inbound request whose method is not OPTIONS and whose
url query parameter is absent or empty, the handler responds with status
exactly 400 and body exactly "Missing url parameter\n", and no outbound
request is attempted. -/
theorem proxyHandler_missing_url (t : Transport) (r : InboundRequest)
    (hm : r.method ≠ "OPTIONS") (hq : queryGet r.query "url" = "") :
    (proxyHandler t r).1.statusCode = 400 ∧
    (proxyHandler t r).1.body = "Missing url parameter\n" ∧
    (proxyHandler t r).2 = none := by
  have he : proxyHandler t r = (httpError corsResponse "Missing url parameter" 400, none) := by
    simp [proxyHandler, hm, hq]
  rw [he]
  refine ⟨httpError_statusCode_of_none _ _ _ rfl, ?_, rfl⟩
  rw [httpError_body]
  rfl

theorem proxyHandler_missing_url_witness :
    (proxyHandler stubTransport reqMissingUrl).1.statusCode = 400 ∧
    (proxyHandler stubTransport reqMissingUrl).1.body = "Missing url parameter\n" ∧
    (proxyHandler stubTransport reqMissingUrl).2 = none :=
  proxyHandler_missing_url stubTransport reqMissingUrl (by decide) (by decide)

/-- C3: for every inbound request whose method is not OPTIONS and whose
non-empty url parameter fails URL parsing, the handler responds with
status exactly 400 and body exactly "Invalid url parameter\n", and no
outbound request is attempted. -/
theorem proxyHandler_invalid_url (t : Transport) (r : InboundRequest)
    (hm : r.method ≠ "OPTIONS") (hq : queryGet r.query "url" ≠ "")
    (hp : goURLParse (queryGet r.query "url") = none) :
    (proxyHandler t r).1.statusCode = 400 ∧
    (proxyHandler t r).1.body = "Invalid url parameter\n" ∧
    (proxyHandler t r).2 = none := by
  have he : proxyHandler t r = (httpError corsResponse "Invalid url parameter" 400, none) := by
    simp [proxyHandler, hm, hq, hp]
  rw [he]
  refine ⟨httpError_statusCode_of_none _ _ _ rfl, ?_, rfl⟩
  rw [httpError_body]
  rfl

theorem proxyHandler_invalid_url_witness :
    (proxyHandler stubTransport reqBadUrl).1.statusCode = 400 ∧
    (proxyHandler stubTransport reqBadUrl).1.body = "Invalid url parameter\n" ∧
    (proxyHandler stubTransport reqBadUrl).2 = none :=
  proxyHandler_invalid_url stubTransport reqBadUrl (by decide) (by decide) (by decide)

/-- C4: for every inbound request with method OPTIONS, regardless of its
query parameters, the handler terminates with an empty body, the
platform-default success status 200, all three CORS headers present, and
performs no outbound request. -/
theorem proxyHandler_options_spec (t : Transport) (r : InboundRequest)
    (hm : r.method = "OPTIONS") :
    (proxyHandler t r).1.statusCode = 200 ∧
    (proxyHandler t r).1.body = "" ∧
    corsSet (proxyHandler t r).1.header ∧
    (proxyHandler t r).2 = none := by
  have he : proxyHandler t r = (corsResponse, none) := by
    simp [proxyHandler, hm]
  rw [he]
  exact ⟨rfl, rfl, by decide, rfl⟩

theorem proxyHandler_options_spec_witness :
    (proxyHandler stubTransport reqOptions).1.statusCode = 200 ∧
    (proxyHandler stubTransport reqOptions).1.body = "" ∧
    corsSet (proxyHandler stubTransport reqOptions).1.header ∧
    (proxyHandler stubTransport reqOptions).2 = none :=
  proxyHandler_options_spec stubTransport reqOptions (by decide)

/-- C5: on every response path of the forwarding handler, the response
headers carry Access-Control-Allow-Origin "*",
Access-Control-Allow-Methods "GET, POST, OPTIONS" and
Access-Control-Allow-Headers "Content-Type". -/
theorem proxyHandler_cors_always (t : Transport) (r : InboundRequest) :
    corsSet (proxyHandler t r).1.header := by
  apply corsSet_of_corsHead
  have hc0 : corsHead corsResponse.header := corsHead_corsResponse
  by_cases hm : r.method = "OPTIONS"
  · have he : proxyHandler t r = (corsResponse, none) := by simp [proxyHandler, hm]
    rw [he]
    exact hc0
  · by_cases hq : queryGet r.query "url" = ""
    · have he : proxyHandler t r = (httpError corsResponse "Missing url parameter" 400, none) := by
        simp [proxyHandler, hm, hq]
      rw [he]
      exact corsHead_httpError _ _ _ hc0
    · cases hp : goURLParse (queryGet r.query "url") with
      | none =>
        have he : proxyHandler t r = (httpError corsResponse "Invalid url parameter" 400, none) := by
          simp [proxyHandler, hm, hq, hp]
        rw [he]
        exact corsHead_httpError _ _ _ hc0
      | some u =>
        have hr := goURLParse_toString _ u hp
        by_cases hmp : r.method = "POST"
        · cases hbr : r.bodyRead with
          | error e =>
            have he : proxyHandler t r =
                (httpError corsResponse "GHISA: Failed to read request body" 500, none) := by
              simp [proxyHandler, hm, hq, hp, hmp, hbr]
            rw [he]
            exact corsHead_httpError _ _ _ hc0
          | ok body =>
            have he : proxyHandler t r =
                (doStage t corsResponse
                  { method := "POST", url := u.toString, body := some body, header := r.header },
                 some { method := "POST", url := u.toString, body := some body,
                        header := r.header }) := by
              simp [proxyHandler, hm, hq, hp, hmp, hbr, newRequest, hr]
            rw [he]
            exact corsHead_doStage _ _ _ hc0
        · have he : proxyHandler t r =
              (doStage t corsResponse
                { method := "GET", url := u.toString, body := none, header := r.header },
               some { method := "GET", url := u.toString, body := none, header := r.header }) := by
            simp [proxyHandler, hm, hq, hp, hmp, newRequest, hr]
          rw [he]
          exact corsHead_doStage _ _ _ hc0

/-- Inversion: when the handler attempted an outbound request, its
response is the post-`Do` stage applied to that request over the
CORS-initialised writer. -/
theorem proxyHandler_fst_of_snd (t : Transport) (r : InboundRequest) (req : OutboundRequest)
    (hreq : (proxyHandler t r).2 = some req) :
    (proxyHandler t r).1 = doStage t corsResponse req := by
  by_cases hm : r.method = "OPTIONS"
  · rw [show proxyHandler t r = (corsResponse, none) from by simp [proxyHandler, hm]] at hreq
    simp at hreq
  · by_cases hq : queryGet r.query "url" = ""
    · rw [show proxyHandler t r = (httpError corsResponse "Missing url parameter" 400, none) from
        by simp [proxyHandler, hm, hq]] at hreq
      simp at hreq
    · cases hp : goURLParse (queryGet r.query "url") with
      | none =>
        rw [show proxyHandler t r = (httpError corsResponse "Invalid url parameter" 400, none) from
          by simp [proxyHandler, hm, hq, hp]] at hreq
        simp at hreq
      | some u =>
        have hr := goURLParse_toString _ u hp
        by_cases hmp : r.method = "POST"
        · cases hbr : r.bodyRead with
          | error e =>
            rw [show proxyHandler t r =
                (httpError corsResponse "GHISA: Failed to read request body" 500, none) from
              by simp [proxyHandler, hm, hq, hp, hmp, hbr]] at hreq
            simp at hreq
          | ok body =>
            have he : proxyHandler t r =
                (doStage t corsResponse
                  { method := "POST", url := u.toString, body := some body, header := r.header },
                 some { method := "POST", url := u.toString, body := some body,
                        header := r.header }) := by
              simp [proxyHandler, hm, hq, hp, hmp, hbr, newRequest, hr]
            rw [he] at hreq
            have h2 := Option.some.inj hreq
            rw [he, ← h2]
        · have he : proxyHandler t r =
              (doStage t corsResponse
                { method := "GET", url := u.toString, body := none, header := r.header },
               some { method := "GET", url := u.toString, body := none, header := r.header }) := by
            simp [proxyHandler, hm, hq, hp, hmp, newRequest, hr]
          rw [he] at hreq
          have h2 := Option.some.inj hreq
          rw [he, ← h2]

/-- C1 counterexample: an inbound DELETE with a valid url parameter is
forwarded with outbound method GET, not the inbound method DELETE. -/
theorem proxyHandler_same_method_counterexample :
    reqDelete.method = "DELETE" ∧
    queryGet reqDelete.query "url" ≠ "" ∧
    goURLParse (queryGet reqDelete.query "url") = some ⟨"http://example.com/echo"⟩ ∧
    (proxyHandler stubTransport reqDelete).2.map OutboundRequest.method = some "GET" := by
  refine ⟨rfl, by decide, by decide, by decide⟩

/-- C1 (amended): for every inbound request whose method is neither
OPTIONS nor POST and whose url parameter is present and parses, the
handler constructs the outbound request with method GET (regardless of
the inbound method), no body, the parsed URL as target, and the full
inbound header mapping attached. -/
theorem proxyHandler_other_method_forwards_as_get (t : Transport) (r : InboundRequest)
    (u : GoURL)
    (hm : r.method ≠ "OPTIONS") (hmp : r.method ≠ "POST")
    (hq : queryGet r.query "url" ≠ "")
    (hp : goURLParse (queryGet r.query "url") = some u) :
    (proxyHandler t r).2 =
      some { method := "GET", url := u.toString, body := none, header := r.header } := by
  have hr := goURLParse_toString _ u hp
  have he : proxyHandler t r =
      (doStage t corsResponse
        { method := "GET", url := u.toString, body := none, header := r.header },
       some { method := "GET", url := u.toString, body := none, header := r.header }) := by
    simp [proxyHandler, hm, hmp, hq, hp, newRequest, hr]
  rw [he]

theorem proxyHandler_other_method_forwards_as_get_witness :
    (proxyHandler stubTransport reqDelete).2 =
      some { method := "GET", url := GoURL.toString ⟨"http://example.com/echo"⟩, body := none,
             header := reqDelete.header } :=
  proxyHandler_other_method_forwards_as_get stubTransport reqDelete ⟨"http://example.com/echo"⟩
    (by decide) (by decide) (by decide) (by decide)

/-- C6: for every valid GET request whose outbound execution succeeds
and whose response body is read successfully, the relayed response has a
body byte-for-byte equal to the target's response body and a status code
equal to the target's status code. -/
theorem proxyHandler_get_relay (t : Transport) (r : InboundRequest) (u : GoURL)
    (resp : UpstreamResponse) (b : String)
    (hm : r.method = "GET")
    (hq : queryGet r.query "url" ≠ "")
    (hp : goURLParse (queryGet r.query "url") = some u)
    (ht : t { method := "GET", url := u.toString, body := none, header := r.header } = .ok resp)
    (hb : resp.bodyRead = .ok b) :
    (proxyHandler t r).1.statusCode = resp.status ∧
    (proxyHandler t r).1.body = b := by
  have hm1 : r.method ≠ "OPTIONS" := by rw [hm]; decide
  have hm2 : r.method ≠ "POST" := by rw [hm]; decide
  have hr := goURLParse_toString _ u hp
  have he : proxyHandler t r =
      (doStage t corsResponse
        { method := "GET", url := u.toString, body := none, header := r.header },
       some { method := "GET", url := u.toString, body := none, header := r.header }) := by
    simp [proxyHandler, hm1, hm2, hq, hp, newRequest, hr]
  obtain ⟨h1, h2, h3⟩ := doStage_ok t corsResponse
    { method := "GET", url := u.toString, body := none, header := r.header } resp b ht hb rfl
  have hbody : (doStage t corsResponse
      { method := "GET", url := u.toString, body := none, header := r.header }).body = b := by
    rw [h2]
    exact string_empty_append b
  rw [he]
  exact ⟨h1, hbody⟩

theorem proxyHandler_get_relay_witness :
    (proxyHandler okTransport reqGet).1.statusCode = 201 ∧
    (proxyHandler okTransport reqGet).1.body = "backend response" :=
  proxyHandler_get_relay okTransport reqGet ⟨"http://example.com/echo"⟩ upstreamA
    "backend response" rfl (by decide) (by decide) rfl rfl

/-- C7: on a successful outbound execution whose body is relayed, every
upstream header key and every value under it is present (added
additively) in the response's header map, and the three CORS headers set
at the start of handling keep their values. -/
theorem proxyHandler_upstream_headers_additive (t : Transport) (r : InboundRequest)
    (req : OutboundRequest) (resp : UpstreamResponse) (b : String)
    (hreq : (proxyHandler t r).2 = some req)
    (ht : t req = .ok resp)
    (hb : resp.bodyRead = .ok b) :
    (∀ k vs v, (k, vs) ∈ resp.header → v ∈ vs →
      v ∈ headerValues k (proxyHandler t r).1.header) ∧
    corsSet (proxyHandler t r).1.header := by
  have hfst := proxyHandler_fst_of_snd t r req hreq
  obtain ⟨h1, h2, h3⟩ := doStage_ok t corsResponse req resp b ht hb rfl
  constructor
  · intro k vs v hk hv
    rw [hfst, h3]
    exact mem_headerValues_copyHeaders_of_mem k v vs _ _ hk hv
  · rw [hfst, h3]
    exact corsSet_of_corsHead _ (corsHead_copyHeaders _ _ corsHead_corsResponse)

theorem proxyHandler_upstream_headers_additive_witness :
    "a" ∈ headerValues "X-Upstream" (proxyHandler okTransport reqGet).1.header ∧
    corsSet (proxyHandler okTransport reqGet).1.header := by
  have h := proxyHandler_upstream_headers_additive okTransport reqGet
    { method := "GET", url := "http://example.com/echo", body := none, header := reqGet.header }
    upstreamA "backend response" (by decide) rfl rfl
  exact ⟨h.1 "X-Upstream" ["a"] "a" (by decide) (by decide), h.2⟩

/-- C8: a POST with a valid url parameter and a readable body is
forwarded as a POST to the parsed URL carrying exactly the inbound body
and the full inbound header mapping; against a target that echoes the
request body, the relayed response body equals the original body. -/
theorem proxyHandler_post_forward (t : Transport) (r : InboundRequest) (u : GoURL)
    (resp : UpstreamResponse) (body : String)
    (hm : r.method = "POST")
    (hq : queryGet r.query "url" ≠ "")
    (hp : goURLParse (queryGet r.query "url") = some u)
    (hb : r.bodyRead = .ok body)
    (ht : t { method := "POST", url := u.toString, body := some body, header := r.header } =
      .ok resp)
    (hecho : resp.bodyRead = .ok body) :
    (proxyHandler t r).2 =
      some { method := "POST", url := u.toString, body := some body, header := r.header } ∧
    (proxyHandler t r).1.body = body := by
  have hm1 : r.method ≠ "OPTIONS" := by rw [hm]; decide
  have hr := goURLParse_toString _ u hp
  have he : proxyHandler t r =
      (doStage t corsResponse
        { method := "POST", url := u.toString, body := some body, header := r.header },
       some { method := "POST", url := u.toString, body := some body, header := r.header }) := by
    simp [proxyHandler, hm1, hm, hq, hp, hb, newRequest, hr]
  obtain ⟨h1, h2, h3⟩ := doStage_ok t corsResponse
    { method := "POST", url := u.toString, body := some body, header := r.header }
    resp body ht hecho rfl
  have hbody : (doStage t corsResponse
      { method := "POST", url := u.toString, body := some body, header := r.header }).body
      = body := by
    rw [h2]
    exact string_empty_append body
  rw [he]
  exact ⟨rfl, hbody⟩

theorem proxyHandler_post_forward_witness :
    (proxyHandler echoTransport reqPost).2 =
      some { method := "POST", url := GoURL.toString ⟨"http://example.com/echo"⟩,
             body := some "test body", header := reqPost.header } ∧
    (proxyHandler echoTransport reqPost).1.body = "test body" :=
  proxyHandler_post_forward echoTransport reqPost ⟨"http://example.com/echo"⟩
    { status := 200, header := [], bodyRead := .ok "test body" } "test body"
    rfl (by decide) (by decide) rfl rfl rfl

/-- C9: the handler keeps no state across invocations; its result is a
function of the inbound request and the transport's responses alone, so
running the same request twice against a static target (two transports
that answer every outbound request identically) yields identical bodies,
identical status codes, and in fact identical results. -/
theorem proxyHandler_deterministic (t1 t2 : Transport) (r : InboundRequest)
    (h : ∀ q, t1 q = t2 q) :
    (proxyHandler t1 r).1.body = (proxyHandler t2 r).1.body ∧
    (proxyHandler t1 r).1.statusCode = (proxyHandler t2 r).1.statusCode ∧
    proxyHandler t1 r = proxyHandler t2 r := by
  have ht : t1 = t2 := funext h
  rw [ht]
  exact ⟨rfl, rfl, rfl⟩

theorem proxyHandler_deterministic_witness :
    (proxyHandler okTransport reqGet).1.body =
      (proxyHandler (fun q => okTransport q) reqGet).1.body ∧
    (proxyHandler okTransport reqGet).1.statusCode =
      (proxyHandler (fun q => okTransport q) reqGet).1.statusCode ∧
    proxyHandler okTransport reqGet = proxyHandler (fun q => okTransport q) reqGet :=
  proxyHandler_deterministic okTransport (fun q => okTransport q) reqGet (fun _ => rfl)

/-- C10: in the health handler the method check precedes the path check:
any non-GET method yields 405 with body "Method not allowed\n" regardless
of path; a GET to a path other than /health yields 404; and a GET to
/health yields 200 with body exactly "Server is healthy" (no trailing
newline). -/
theorem healthHandler_spec (r : InboundRequest) :
    (r.method ≠ "GET" →
      (healthHandler r).statusCode = 405 ∧ (healthHandler r).body = "Method not allowed\n") ∧
    (r.method = "GET" → r.path ≠ "/health" →
      (healthHandler r).statusCode = 404 ∧ (healthHandler r).body = "404 page not found\n") ∧
    (r.method = "GET" → r.path = "/health" →
      (healthHandler r).statusCode = 200 ∧ (healthHandler r).body = "Server is healthy") := by
  refine ⟨?_, ?_, ?_⟩
  · intro hm
    have he : healthHandler r = httpError Response.empty "Method not allowed" 405 := by
      simp [healthHandler, hm]
    rw [he]
    exact ⟨httpError_statusCode_of_none _ _ _ rfl, by rw [httpError_body]; rfl⟩
  · intro hm hp
    have he : healthHandler r = httpError Response.empty "404 page not found" 404 := by
      simp [healthHandler, hm, hp]
    rw [he]
    exact ⟨httpError_statusCode_of_none _ _ _ rfl, by rw [httpError_body]; rfl⟩
  · intro hm hp
    have he : healthHandler r = Response.write (Response.empty.writeHeader 200)
        "Server is healthy" := by
      simp [healthHandler, hm, hp]
    rw [he]
    exact ⟨rfl, rfl⟩

def reqHealthGet : InboundRequest :=
  { method := "GET", path := "/health", query := [], header := [], bodyRead := .ok "" }

def reqHealthPut : InboundRequest := { reqHealthGet with method := "PUT" }

def reqOtherPath : InboundRequest := { reqHealthGet with path := "/nope" }

theorem healthHandler_spec_witness :
    ((healthHandler reqHealthPut).statusCode = 405 ∧
      (healthHandler reqHealthPut).body = "Method not allowed\n") ∧
    ((healthHandler reqOtherPath).statusCode = 404 ∧
      (healthHandler reqOtherPath).body = "404 page not found\n") ∧
    ((healthHandler reqHealthGet).statusCode = 200 ∧
      (healthHandler reqHealthGet).body = "Server is healthy") :=
  ⟨(healthHandler_spec reqHealthPut).1 (by decide),
   (healthHandler_spec reqOtherPath).2.1 rfl (by decide),
   (healthHandler_spec reqHealthGet).2.2 rfl rfl⟩

end Ghisa
